import Mathlib

/-!
# Stat-Chat: verification of the streak-detection pipeline and query-time fallback

Shallow embedding of the Stat-Chat repository's core logic:

* `src/data_pipeline/detect_streaks.py` — per-game OPS signal construction
  (`compute_game_ops`), change-point segmentation (`detect_change_points`),
  segment aggregation (`compute_segment_stats`), performance labeling
  (`label_performance`), and the primary batch pass (`detect_all_streaks`).
* `src/query_engine.py` — the streak-query fallback logic
  (`handle_streak_query`, `find_best_worst_stretches`, `compute_segment`)
  and conversation-history bookkeeping (`add_to_history`, `ask`).

Python floats are embedded as rationals (`ℚ`); SQLite NULLable integer
columns as `Option ℤ`; game dates (ISO strings ordered lexicographically)
as naturals ordered numerically.  The PELT change-point search itself lives
in the external `ruptures` library, so it is modelled from the spec's
algorithm contract (exact minimization of L2 cost plus a per-segment
penalty); everything else is translated directly from the Python source.
-/

namespace StatChat

/-- One row of `game_batting_logs` as read by `get_game_logs`
(`detect_streaks.py` lines 66-76): date, at-bats, hits, doubles, triples,
home runs, walks, strikeouts, plate appearances.  `at_bats` and
`plate_appearances` are NULLable in the data and their missing-ness is
branched on by the code, hence `Option ℤ`. -/
structure GameLine where
  date : ℕ
  at_bats : Option ℤ
  hits : ℤ
  doubles : ℤ
  triples : ℤ
  home_runs : ℤ
  walks : ℤ
  strikeouts : ℤ
  plate_appearances : Option ℤ
deriving DecidableEq, Repr

/-- Total bases as computed inline in `compute_game_ops` line 86:
`(h - doubles - triples - hr) + 2*doubles + 3*triples + 4*hr`. -/
def totalBases (h d t hr : ℤ) : ℤ :=
  (h - d - t - hr) + 2 * d + 3 * t + 4 * hr

/-- Per-game OPS value for a single row, the loop body of `compute_game_ops`
(`detect_streaks.py` lines 83-92).  The Python guard `ab and ab > 0 and pa
and pa > 0` is true exactly when both columns are present and positive;
otherwise the value is `0.0`. -/
def gameOps (g : GameLine) : ℚ :=
  match g.at_bats, g.plate_appearances with
  | some ab, some pa =>
      if 0 < ab ∧ 0 < pa then
        ((g.hits + g.walks : ℤ) : ℚ) / (pa : ℚ)
          + ((totalBases g.hits g.doubles g.triples g.home_runs : ℤ) : ℚ) / (ab : ℚ)
      else 0
  | _, _ => 0

/-- `compute_game_ops` (`detect_streaks.py` lines 79-93): the per-game OPS
signal, one value per game row, in the order given. -/
def compute_game_ops : List GameLine → List ℚ
  | [] => []
  | g :: gs => gameOps g :: compute_game_ops gs

/-- `np.mean` over a signal (as used for `season_ops` in
`detect_all_streaks` line 179 and `_find_best_worst_stretches` line 435). -/
def listMean (xs : List ℚ) : ℚ := xs.sum / (xs.length : ℚ)

/-- Python's `round(x, 3)` on the exact (rational) value. -/
def roundTo3 (q : ℚ) : ℚ := ((round (q * 1000) : ℤ) : ℚ) / 1000

/-- Whether a list of game rows is sorted strictly by date (the order the
SQL `ORDER BY date ASC` plus the one-row-per-date invariant guarantees). -/
def sortedByDate : List GameLine → Bool
  | [] => true
  | [_] => true
  | a :: b :: rest => decide (a.date < b.date) && sortedByDate (b :: rest)

/-- Performance labels for a segment. -/
inductive Perf
  | hot
  | cold
  | average
deriving DecidableEq, Repr

/-- `label_performance` (`detect_streaks.py` lines 146-156): hot/cold/average
relative to a season baseline; a zero baseline short-circuits to average. -/
def label_performance (segment_ops season_ops : ℚ) : Perf :=
  if season_ops = 0 then .average
  else
    let r := segment_ops / season_ops
    if 6/5 ≤ r then .hot
    else if r ≤ 4/5 then .cold
    else .average

/-- The dictionary built by `compute_segment_stats`
(`detect_streaks.py` lines 130-143). -/
structure SegmentStats where
  start_date : ℕ
  end_date : ℕ
  num_games : ℕ
  batting_avg : ℚ
  obp : ℚ
  slg : ℚ
  ops : ℚ
  home_runs : ℤ
  hits : ℤ
  at_bats : ℤ
  walks : ℤ
  strikeouts : ℤ
deriving DecidableEq, Repr

/-- `compute_segment_stats` (`detect_streaks.py` lines 112-143): sum the
counting stats over `games[start_idx:end_idx]`, recompute the rate stats
from the sums guarding zero denominators, and round the reported rates to
3 decimals.  `ops` is the rounding of the *unrounded* `obp + slg`
(line 128 adds before line 137 rounds). -/
def compute_segment_stats (games : List GameLine) (start_idx end_idx : ℕ) :
    SegmentStats :=
  let segment := (games.drop start_idx).take (end_idx - start_idx)
  let total_ab : ℤ := (segment.map (fun g => g.at_bats.getD 0)).sum
  let total_h : ℤ := (segment.map (·.hits)).sum
  let total_2b : ℤ := (segment.map (·.doubles)).sum
  let total_3b : ℤ := (segment.map (·.triples)).sum
  let total_hr : ℤ := (segment.map (·.home_runs)).sum
  let total_bb : ℤ := (segment.map (·.walks)).sum
  let total_so : ℤ := (segment.map (·.strikeouts)).sum
  let total_pa : ℤ := (segment.map (fun g => g.plate_appearances.getD 0)).sum
  let avg : ℚ := if 0 < total_ab then (total_h : ℚ) / (total_ab : ℚ) else 0
  let obp : ℚ :=
    if 0 < total_pa then ((total_h + total_bb : ℤ) : ℚ) / (total_pa : ℚ) else 0
  let tb := totalBases total_h total_2b total_3b total_hr
  let slg : ℚ := if 0 < total_ab then (tb : ℚ) / (total_ab : ℚ) else 0
  let ops := obp + slg
  { start_date := ((segment.head?).map (·.date)).getD 0
    end_date := ((segment.getLast?).map (·.date)).getD 0
    num_games := segment.length
    batting_avg := roundTo3 avg
    obp := roundTo3 obp
    slg := roundTo3 slg
    ops := roundTo3 ops
    home_runs := total_hr
    hits := total_h
    at_bats := total_ab
    walks := total_bb
    strikeouts := total_so }

/-! ## Segmentation engine

The smoothing step is `np.convolve(signal, np.ones(w)/w, mode='same')`
(`detect_streaks.py` line 103).  The change-point search itself is
`ruptures.Pelt(model="l2", min_size=min_size, jump=1).predict(pen=penalty)`
from the external `ruptures` package. -/

/-- `MIN_SEGMENT_SIZE` (`detect_streaks.py` line 20). -/
def MIN_SEGMENT_SIZE : ℕ := 7

/-- `PENALTY` (`detect_streaks.py` line 21). -/
def PENALTY : ℚ := 3

/-- `ROLLING_WINDOW` (`detect_streaks.py` line 22). -/
def ROLLING_WINDOW : ℕ := 5

/-- Centered moving average, `np.convolve(xs, np.ones(w)/w, mode='same')`:
entry `i` of the result averages the window of `w` raw values centered at
`i` (offset `(w-1)/2`), with out-of-range indices contributing `0`. -/
def smoothSame (w : ℕ) (xs : List ℚ) : List ℚ :=
  (List.range xs.length).map (fun i =>
    ((List.range w).map (fun k =>
        let j : ℤ := (i : ℤ) + ((w - 1) / 2 : ℕ) - (k : ℤ)
        if 0 ≤ j then xs.getD j.toNat 0 else 0)).sum / (w : ℚ))

/-- Modelled from the spec: the L2 segment cost of `xs[i:j]` used by the
external `ruptures` PELT detector — the sum of squared deviations from the
segment mean, written as `Σ x² − (Σ x)² / n` (an empty range costs `0`). -/
def segCost (xs : List ℚ) (i j : ℕ) : ℚ :=
  let ys := (xs.drop i).take (j - i)
  (ys.map (fun x => x ^ 2)).sum - (ys.sum) ^ 2 / (ys.length : ℚ)

/-- First element of the list minimizing the cost component (Python's `min`
tie-breaking: an element replaces the current best only when strictly
smaller). -/
def pickMin : List (ℚ × List ℕ) → Option (ℚ × List ℕ)
  | [] => none
  | x :: xs => some (xs.foldl (fun a b => if b.1 < a.1 then b else a) x)

/-- Modelled from the spec: the exact change-point search performed by the
external `ruptures` PELT detector (`detect_streaks.py` lines 106-108).
`optPartF msz pen cost fuel t` returns the minimal value of
`Σ segment costs + pen × (number of segments)` over all partitions of
`[0, t)` into segments of length ≥ `msz`, together with the list of segment
end indices (the breakpoints, ending in `t`); `none` when no such partition
exists.  Minimizing cost plus a penalty per segment is the spec's
`Σ cost + penalty × (segments − 1)` shifted by the constant `pen`, so the
argmin is the same.  `fuel ≥ t` suffices for the recursion to bottom out. -/
def optPartF (msz : ℕ) (pen : ℚ) (cost : ℕ → ℕ → ℚ) :
    ℕ → ℕ → Option (ℚ × List ℕ)
  | _, 0 => some (0, [])
  | 0, _ + 1 => none
  | fuel + 1, t + 1 =>
      pickMin ((List.range (t + 1)).filterMap (fun s =>
        if s + msz ≤ t + 1 then
          (optPartF msz pen cost fuel s).map
            (fun p => (p.1 + cost s (t + 1) + pen, p.2 ++ [t + 1]))
        else none))

/-- `detect_change_points` (`detect_streaks.py` lines 96-109): signals with
fewer than `2 × min_size` samples skip detection and return the single
breakpoint `[len(signal)]`; otherwise the signal is smoothed and the PELT
search (modelled by `optPartF`) runs on the smoothed signal.  The `none`
branch is unreachable for `min_size * 2 ≤ length` (the single-segment
partition always exists) and mirrors the total behaviour. -/
def detect_change_points (signal : List ℚ) (min_size : ℕ) (penalty : ℚ) :
    List ℕ :=
  if signal.length < min_size * 2 then [signal.length]
  else
    let smoothed := smoothSame ROLLING_WINDOW signal
    match optPartF min_size penalty (segCost smoothed)
        signal.length signal.length with
    | some (_, bk) => bk
    | none => [signal.length]

/-! ## Primary batch pass (`detect_all_streaks`, lines 159-214) -/

/-- The season baseline used for labeling in the primary pass:
`season_ops = np.mean(ops_signal)` (`detect_streaks.py` line 179). -/
def primaryBaseline (games : List GameLine) : ℚ :=
  listMean (compute_game_ops games)

/-- Modelled from the spec: the "precomputed season rate-stat OPS" stored
in `season_batting_stats` (pulled from the external stats provider by
`pull_stats.py`), i.e. the season OPS recomputed from the summed season
totals — on-base `(H+BB)/PA` plus slugging `TB/AB` over the whole season.
`detect_streaks.py` never reads it; it is defined here only to compare
against the baseline the code actually uses. -/
def seasonRateStatOps (games : List GameLine) : ℚ :=
  let s := compute_segment_stats games 0 games.length
  let obp : ℚ :=
    if 0 < (s.hits + s.walks) ∧ 0 < ((games.map (fun g => g.plate_appearances.getD 0)).sum) then
      ((s.hits + s.walks : ℤ) : ℚ) / (((games.map (fun g => g.plate_appearances.getD 0)).sum : ℤ) : ℚ)
    else 0
  let slg : ℚ :=
    if 0 < s.at_bats then
      ((totalBases s.hits (games.map (·.doubles)).sum (games.map (·.triples)).sum s.home_runs : ℤ) : ℚ) / (s.at_bats : ℚ)
    else 0
  obp + slg

/-- The segment-building loop of `detect_all_streaks` (lines 184-207):
walk the breakpoints, clamp each end index to the game count, aggregate the
segment, and label it against `season_ops`. -/
def buildSegments (games : List GameLine) (season_ops : ℚ) :
    ℕ → List ℕ → List (SegmentStats × Perf)
  | _, [] => []
  | start_idx, end_idx :: rest =>
      let e := min end_idx games.length
      let stats := compute_segment_stats games start_idx e
      (stats, label_performance stats.ops season_ops)
        :: buildSegments games season_ops e rest

/-- The per-player-season body of `detect_all_streaks` (lines 172-207):
seasons with fewer than `2 × MIN_SEGMENT_SIZE` games are skipped, otherwise
the signal is built, the baseline is the signal mean, change points are
detected and each resulting segment is aggregated and labeled. -/
def processPlayerSeason (games : List GameLine) : List (SegmentStats × Perf) :=
  if games.length < MIN_SEGMENT_SIZE * 2 then []
  else
    let ops_signal := compute_game_ops games
    let season_ops := primaryBaseline games
    let breakpoints := detect_change_points ops_signal MIN_SEGMENT_SIZE PENALTY
    buildSegments games season_ops 0 breakpoints

/-- The database state the detection passes read and write: the game logs
(one ordered list per player-season, as `get_game_logs` returns them) and
the two Detection Record tables.  Records are the tuples the `INSERT`
statements write (the storage engine's autoincrement surrogate key is not
part of the record). -/
structure Database where
  game_logs : List (String × ℤ × List GameLine)
  streaks : List (String × ℤ × SegmentStats × Perf)
  streaks_sensitive : List (String × ℤ × SegmentStats × Perf × ℚ)
deriving DecidableEq

/-- `detect_all_streaks` (`detect_streaks.py` lines 159-214): clear the
`streaks` table (`DELETE FROM streaks`, line 165) and repopulate it from
the game logs alone. -/
def detect_all_streaks (db : Database) : Database :=
  { db with
    streaks := db.game_logs.flatMap (fun pg =>
      (processPlayerSeason pg.2.2).map (fun sp => (pg.1, pg.2.1, sp.1, sp.2))) }

/-! ## Query engine (`src/query_engine.py`) -/

/-- The dictionary built by `QueryEngine._compute_segment`
(`query_engine.py` lines 483-502).  Unlike `compute_segment_stats`, here
`avg`, `obp` and `slg` are rounded *before* `ops` is formed, and `ops` is
the rounding of the sum of the already-rounded parts (line 501). -/
structure FallbackSeg where
  start_date : ℕ
  end_date : ℕ
  num_games : ℕ
  avg : ℚ
  obp : ℚ
  slg : ℚ
  ops : ℚ
  hr : ℤ
  hits : ℤ
  ab : ℤ
  bb : ℤ
deriving DecidableEq, Repr

/-- `QueryEngine._compute_segment` (`query_engine.py` lines 483-502). -/
def compute_segment (games : List GameLine) (start_idx end_idx : ℕ) :
    FallbackSeg :=
  let seg := (games.drop start_idx).take (end_idx - start_idx)
  let ab : ℤ := (seg.map (fun g => g.at_bats.getD 0)).sum
  let h : ℤ := (seg.map (·.hits)).sum
  let d : ℤ := (seg.map (·.doubles)).sum
  let t : ℤ := (seg.map (·.triples)).sum
  let hr : ℤ := (seg.map (·.home_runs)).sum
  let bb : ℤ := (seg.map (·.walks)).sum
  let pa : ℤ := (seg.map (fun g => g.plate_appearances.getD 0)).sum
  let avg : ℚ := if 0 < ab then roundTo3 ((h : ℚ) / (ab : ℚ)) else 0
  let obp : ℚ := if 0 < pa then roundTo3 (((h + bb : ℤ) : ℚ) / (pa : ℚ)) else 0
  let tb := totalBases h d t hr
  let slg : ℚ := if 0 < ab then roundTo3 ((tb : ℚ) / (ab : ℚ)) else 0
  { start_date := ((seg.head?).map (·.date)).getD 0
    end_date := ((seg.getLast?).map (·.date)).getD 0
    num_games := seg.length
    avg := avg
    obp := obp
    slg := slg
    ops := roundTo3 (obp + slg)
    hr := hr
    hits := h
    ab := ab
    bb := bb }

/-- The exact (unrounded) aggregate OPS of `games[s:e]`, recomputed from
the summed counts — what the spec's "internal comparisons use unrounded
values" sentence refers to. -/
def exactSegOps (games : List GameLine) (s e : ℕ) : ℚ :=
  let seg := (games.drop s).take (e - s)
  let ab : ℤ := (seg.map (fun g => g.at_bats.getD 0)).sum
  let h : ℤ := (seg.map (·.hits)).sum
  let bb : ℤ := (seg.map (·.walks)).sum
  let pa : ℤ := (seg.map (fun g => g.plate_appearances.getD 0)).sum
  let tb := totalBases h (seg.map (·.doubles)).sum (seg.map (·.triples)).sum
    (seg.map (·.home_runs)).sum
  (if 0 < pa then ((h + bb : ℤ) : ℚ) / (pa : ℚ) else 0)
    + (if 0 < ab then (tb : ℚ) / (ab : ℚ) else 0)

/-- `FALLBACK_PENALTY` (`query_engine.py` line 386). -/
def FALLBACK_PENALTY : ℚ := 3/2

/-- `FALLBACK_MIN_SEGMENT` (`query_engine.py` line 387). -/
def FALLBACK_MIN_SEGMENT : ℕ := 7

/-- `FALLBACK_MAX_SEGMENT` (`query_engine.py` line 388). -/
def FALLBACK_MAX_SEGMENT : ℕ := 30

/-- `FALLBACK_ROLLING_WINDOW` (`query_engine.py` line 389). -/
def FALLBACK_ROLLING_WINDOW : ℕ := 5

/-- The segment-collecting loop of `_find_best_worst_stretches`
(`query_engine.py` lines 446-456): keep only segments of 7-30 games,
advancing `start_idx` to each (clamped) end index. -/
def collectFallbackSegs (games : List GameLine) :
    ℕ → List ℕ → List FallbackSeg
  | _, [] => []
  | start_idx, end_idx :: rest =>
      let e := min end_idx games.length
      let n := e - start_idx
      if FALLBACK_MIN_SEGMENT ≤ n ∧ n ≤ FALLBACK_MAX_SEGMENT then
        compute_segment games start_idx e :: collectFallbackSegs games e rest
      else collectFallbackSegs games e rest

/-- `max(segments, key=lambda s: s["ops"])` (`query_engine.py` line 462):
Python's `max` keeps the first element among ties and replaces only on a
strictly larger key. -/
def maxByOps : List FallbackSeg → Option FallbackSeg
  | [] => none
  | s :: rest => some (rest.foldl (fun a b => if a.ops < b.ops then b else a) s)

/-- `min(segments, key=lambda s: s["ops"])` (`query_engine.py` line 463). -/
def minByOps : List FallbackSeg → Option FallbackSeg
  | [] => none
  | s :: rest => some (rest.foldl (fun a b => if b.ops < a.ops then b else a) s)

/-- `QueryEngine._find_best_worst_stretches` (`query_engine.py` lines
391-481), abstracted over its storage read: given the player-season's game
log, rebuild the OPS signal, re-run the sensitive change-point detection,
and return the season mean plus the hottest and coldest 7-30 game segments
(`none` models the empty-string returns: too few games, or no qualifying
segment). -/
def find_best_worst_stretches (games : List GameLine) :
    Option (ℚ × FallbackSeg × FallbackSeg) :=
  if games.length < FALLBACK_MIN_SEGMENT * 2 then none
  else
    let signal := compute_game_ops games
    let season_ops := listMean signal
    let smoothed := smoothSame FALLBACK_ROLLING_WINDOW signal
    let breakpoints :=
      match optPartF FALLBACK_MIN_SEGMENT FALLBACK_PENALTY (segCost smoothed)
          games.length games.length with
      | some (_, bk) => bk
      | none => [games.length]
    let segments := collectFallbackSegs games 0 breakpoints
    match maxByOps segments, minByOps segments with
    | some hottest, some coldest => some (season_ops, hottest, coldest)
    | _, _ => none

/-- The value `QueryEngine._handle_streak_query` hands to narration:
either the explicit no-data reply (line 332) or a list of primary streak
rows optionally extended with the live-recomputed best/worst stretches. -/
inductive StreakAnswer
  | noData
  | answer (rows : List (SegmentStats × Perf))
      (fallback : Option (ℚ × FallbackSeg × FallbackSeg))
deriving DecidableEq

/-- Whether a primary streak row passes the optional performance filter of
the generated SQL. -/
def matchesFilter (f : Option Perf) (p : Perf) : Bool :=
  match f with
  | none => true
  | some l => decide (p = l)

/-- `QueryEngine._handle_streak_query` (`query_engine.py` lines 307-355)
for one (player, season), abstracted over the LLM/SQL plumbing: `primary`
is that player-season's `streaks` rows, `labelFilter` the performance
filter of the generated SQL, `secondary` the player-season's
`streaks_sensitive` rows, and `games` its game log.  If the filtered query
is empty, retry with all primary rows (`_get_all_streaks_for_query`, lines
357-383, which queries only the `streaks` table); when even those are
empty, reply no-data.  When the rows came from the unfiltered retry or
number exactly one, additionally run the live recomputation
(`_find_best_worst_stretches`) and attach its result.  No branch reads
`secondary`: the code never queries `streaks_sensitive`. -/
def handle_streak_query (primary : List (SegmentStats × Perf))
    (secondary : List (SegmentStats × Perf × ℚ)) (games : List GameLine)
    (labelFilter : Option Perf) : StreakAnswer :=
  let rows := primary.filter (fun r => matchesFilter labelFilter r.2)
  if rows.isEmpty then
    if primary.isEmpty then .noData
    else .answer primary (find_best_worst_stretches games)
  else if rows.length = 1 then .answer rows (find_best_worst_stretches games)
  else .answer rows none

/-! ## Conversation history (`QueryEngine.ask` / `_add_to_history`) -/

/-- `MAX_HISTORY` (`query_engine.py` line 222). -/
def MAX_HISTORY : ℕ := 5

/-- `QueryEngine._add_to_history` (`query_engine.py` lines 504-508):
append the exchange, then keep only the last `MAX_HISTORY` entries
(`self.history[-MAX_HISTORY:]`). -/
def add_to_history (history : List (String × String)) (q a : String) :
    List (String × String) :=
  let h := history ++ [(q, a)]
  if MAX_HISTORY < h.length then h.drop (h.length - MAX_HISTORY) else h

/-- The conversation state of a `QueryEngine`. -/
structure EngineState where
  history : List (String × String)
deriving DecidableEq

/-- `QueryEngine.ask` (`query_engine.py` lines 229-241) with the LLM calls
and handlers abstracted into `answerOf` (both handlers are functions of the
question and the current history): produce the answer, record exactly one
(question, answer) exchange, and return. -/
def ask (answerOf : List (String × String) → String → String)
    (st : EngineState) (q : String) : String × EngineState :=
  let a := answerOf st.history q
  (a, { history := add_to_history st.history q a })

/-! ## Concrete inputs used by witnesses and counterexamples -/

/-- A box-score line with zero at-bats and zero plate appearances on day
`d` (a legitimate row: pinch-runner appearances and the like). -/
def zGame (d : ℕ) : GameLine :=
  { date := d, at_bats := some 0, hits := 0, doubles := 0, triples := 0,
    home_runs := 0, walks := 0, strikeouts := 0, plate_appearances := some 0 }

/-- A 14-game season of zero-action games (long enough for detection). -/
def zGames : List GameLine := (List.range 14).map zGame

/-- The stat line `compute_segment_stats zGames 0 14` evaluates to. -/
def zStats : SegmentStats :=
  { start_date := 0, end_date := 13, num_games := 14, batting_avg := 0,
    obp := 0, slg := 0, ops := 0, home_runs := 0, hits := 0, at_bats := 0,
    walks := 0, strikeouts := 0 }

/-- The segment `compute_segment zGames 0 14` evaluates to. -/
def zSeg : FallbackSeg :=
  { start_date := 0, end_date := 13, num_games := 14, avg := 0, obp := 0,
    slg := 0, ops := 0, hr := 0, hits := 0, ab := 0, bb := 0 }

/-- A 4-for-4 game (four singles, no walks) on day `d`. -/
def hotGame (d : ℕ) : GameLine :=
  { date := d, at_bats := some 4, hits := 4, doubles := 0, triples := 0,
    home_runs := 0, walks := 0, strikeouts := 0, plate_appearances := some 4 }

/-- A 14-game season: thirteen 4-for-4 games and one 0-for-1 day.  Its
per-game OPS signal is thirteen `2.0`s and one `0.0` (mean `13/7`), while
its aggregate season OPS from summed totals is `104/53` — the two candidate
baselines genuinely differ. -/
def c2Games : List GameLine :=
  ((List.range 13).map hotGame) ++
    [{ date := 13, at_bats := some 1, hits := 0, doubles := 0, triples := 0,
       home_runs := 0, walks := 0, strikeouts := 0,
       plate_appearances := some 1 }]

/-- Two game rows out of date order (day 5 before day 3). -/
def c3Games : List GameLine :=
  [{ date := 5, at_bats := some 1, hits := 1, doubles := 0, triples := 0,
     home_runs := 0, walks := 0, strikeouts := 0, plate_appearances := some 1 },
   { date := 3, at_bats := some 2, hits := 1, doubles := 0, triples := 0,
     home_runs := 0, walks := 0, strikeouts := 0, plate_appearances := some 4 }]

/-- A 14-game season whose two 7-game halves have aggregate OPS `4/5`
(first half: 12-for-30 with 30 plate appearances) and `2/5 + 401/1002`
(second half: 401-for-1002 with one walk in 1005 plate appearances).  Both
round to `0.800`, but the second half's exact OPS is strictly larger. -/
def c4Games : List GameLine :=
  [{ date := 0, at_bats := some 30, hits := 12, doubles := 0, triples := 0,
     home_runs := 0, walks := 0, strikeouts := 0, plate_appearances := some 30 }]
  ++ ((List.range 6).map (fun i => zGame (i + 1)))
  ++ [{ date := 7, at_bats := some 1002, hits := 401, doubles := 0, triples := 0,
        home_runs := 0, walks := 1, strikeouts := 0,
        plate_appearances := some 1005 }]
  ++ ((List.range 6).map (fun i => zGame (i + 8)))

/-! ## General lemmas -/

/-- `compute_game_ops` is the elementwise map of `gameOps` over the rows,
whatever their order. -/
theorem compute_game_ops_eq_map :
    ∀ gs : List GameLine, compute_game_ops gs = gs.map gameOps
  | [] => rfl
  | g :: gs => by
      show gameOps g :: compute_game_ops gs = gameOps g :: gs.map gameOps
      rw [compute_game_ops_eq_map gs]

/-- The strict-min fold used by `pickMin` returns an element of the
initial value consed onto the list. -/
theorem foldl_min_mem : ∀ (l : List (ℚ × List ℕ)) (a : ℚ × List ℕ),
    l.foldl (fun a b => if b.1 < a.1 then b else a) a ∈ a :: l
  | [], _ => by simp
  | b :: bs, a => by
      simp only [List.foldl_cons]
      rcases List.mem_cons.1
          (foldl_min_mem bs (if b.1 < a.1 then b else a)) with h | h
      · rw [h]
        by_cases hb : b.1 < a.1 <;> simp [hb]
      · simp [List.mem_cons, Or.inr (Or.inr h)]

/-- `pickMin` returns an element of its input list. -/
theorem pickMin_mem (l : List (ℚ × List ℕ)) (x : ℚ × List ℕ)
    (h : pickMin l = some x) : x ∈ l := by
  cases l with
  | nil => simp [pickMin] at h
  | cons a as =>
      simp only [pickMin, Option.some.injEq] at h
      rw [← h]
      exact foldl_min_mem as a

/-- The fold implementing Python's `max(segments, key=...)` returns a
member whose key dominates every key in the list. -/
theorem foldl_maxOps_spec : ∀ (l : List FallbackSeg) (a : FallbackSeg),
    (l.foldl (fun a b => if a.ops < b.ops then b else a) a ∈ a :: l) ∧
    (∀ x ∈ a :: l,
      x.ops ≤ (l.foldl (fun a b => if a.ops < b.ops then b else a) a).ops)
  | [], a => by simp
  | b :: bs, a => by
      obtain ⟨ihmem, ihle⟩ := foldl_maxOps_spec bs (if a.ops < b.ops then b else a)
      simp only [List.foldl_cons]
      constructor
      · rcases List.mem_cons.1 ihmem with h | h
        · rw [h]
          by_cases hb : a.ops < b.ops <;> simp [hb]
        · simp [List.mem_cons, Or.inr (Or.inr h)]
      · intro x hx
        rcases List.mem_cons.1 hx with rfl | hx
        · refine le_trans ?_ (ihle _ (List.mem_cons_self _ _))
          by_cases hb : x.ops < b.ops <;> simp [hb]
          exact le_of_lt hb
        · rcases List.mem_cons.1 hx with rfl | hx
          · refine le_trans ?_ (ihle _ (List.mem_cons_self _ _))
            by_cases hb : a.ops < x.ops <;> simp [hb]
            exact le_of_not_lt hb
          · exact ihle x (List.mem_cons_of_mem _ hx)

/-- The fold implementing Python's `min(segments, key=...)` returns a
member whose key is dominated by every key in the list. -/
theorem foldl_minOps_spec : ∀ (l : List FallbackSeg) (a : FallbackSeg),
    (l.foldl (fun a b => if b.ops < a.ops then b else a) a ∈ a :: l) ∧
    (∀ x ∈ a :: l,
      (l.foldl (fun a b => if b.ops < a.ops then b else a) a).ops ≤ x.ops)
  | [], a => by simp
  | b :: bs, a => by
      obtain ⟨ihmem, ihle⟩ := foldl_minOps_spec bs (if b.ops < a.ops then b else a)
      simp only [List.foldl_cons]
      constructor
      · rcases List.mem_cons.1 ihmem with h | h
        · rw [h]
          by_cases hb : b.ops < a.ops <;> simp [hb]
        · simp [List.mem_cons, Or.inr (Or.inr h)]
      · intro x hx
        rcases List.mem_cons.1 hx with rfl | hx
        · refine le_trans (ihle _ (List.mem_cons_self _ _)) ?_
          by_cases hb : b.ops < x.ops <;> simp [hb]
          exact le_of_lt hb
        · rcases List.mem_cons.1 hx with rfl | hx
          · refine le_trans (ihle _ (List.mem_cons_self _ _)) ?_
            by_cases hb : x.ops < a.ops <;> simp [hb]
            exact le_of_not_lt hb
          · exact ihle x (List.mem_cons_of_mem _ hx)

/-- Everything `_add_to_history` guarantees about the new history list:
bounded length, the new exchange last, and the result a suffix of the
appended history (oldest entries dropped first). -/
theorem add_to_history_spec (hist : List (String × String)) (q a : String) :
    (add_to_history hist q a).length ≤ MAX_HISTORY ∧
    (add_to_history hist q a).getLast? = some (q, a) ∧
    List.IsSuffix (add_to_history hist q a) (hist ++ [(q, a)]) := by
  unfold add_to_history
  have hM : MAX_HISTORY = 5 := rfl
  simp only [hM]
  by_cases hc : 5 < (hist ++ [(q, a)]).length
  · rw [if_pos hc]
    have hlen : (hist ++ [(q, a)]).length = hist.length + 1 := by simp
    refine ⟨?_, ?_, ?_⟩
    · rw [List.length_drop]
      omega
    · rw [List.drop_append_eq_append_drop]
      have : (hist ++ [(q, a)]).length - 5 - hist.length = 0 := by
        omega
      rw [this, List.drop_zero, List.getLast?_concat]
    · exact List.drop_suffix _ _
  · rw [if_neg hc]
    exact ⟨by omega, List.getLast?_concat _, List.suffix_refl _⟩

/-! ## Claim theorems -/

/-- **C3 (counterexample)**: on an input that is *not* sorted by date, the
Signal Builder does not fail at all: `compute_game_ops` silently returns
the ordinary per-game OPS signal `[2, 1]`.  No `OrderingError` (or any
other failure path) exists in the builder. -/
theorem c3_counterexample :
    sortedByDate c3Games = false ∧ compute_game_ops c3Games = [2, 3/4] := by
  constructor
  · rfl
  · show compute_game_ops _ = _
    norm_num [c3Games, compute_game_ops, gameOps, totalBases]

/-- **C3 (amended)**: the Signal Builder performs no ordering validation
and cannot fail: for *every* input list — sorted by date or not — it
returns exactly one OPS value per game, in the order given (the date order
of its input is the caller's responsibility, supplied by the SQL
`ORDER BY date ASC` in `get_game_logs`). -/
theorem c3_amended_no_ordering_check (gs : List GameLine) :
    compute_game_ops gs = gs.map gameOps ∧
    (compute_game_ops gs).length = gs.length := by
  refine ⟨compute_game_ops_eq_map gs, ?_⟩
  rw [compute_game_ops_eq_map gs, List.length_map]

/-- **C5**: the Performance Classifier returns "average" when the baseline
is `0`; for a nonzero baseline it returns "hot" exactly when
`segment/baseline ≥ 1.20` (the boundary included), "cold" exactly when the
ratio is `≤ 0.80` (boundary included), and "average" exactly on the open
band between them. -/
theorem c5_classifier_band (s b : ℚ) :
    (b = 0 → label_performance s b = .average) ∧
    (b ≠ 0 →
      ((label_performance s b = .hot ↔ 6/5 ≤ s / b) ∧
       (label_performance s b = .cold ↔ s / b ≤ 4/5) ∧
       (label_performance s b = .average ↔ 4/5 < s / b ∧ s / b < 6/5))) := by
  unfold label_performance
  constructor
  · intro hb
    rw [if_pos hb]
  · intro hb
    rw [if_neg hb]
    by_cases h1 : 6/5 ≤ s / b
    · rw [if_pos h1]
      refine ⟨by simp [h1], ?_, ?_⟩
      · constructor
        · intro h
          exact absurd h (by simp)
        · intro h
          linarith
      · constructor
        · intro h
          exact absurd h (by simp)
        · intro h
          linarith [h.2]
    · rw [if_neg h1]
      by_cases h2 : s / b ≤ 4/5
      · rw [if_pos h2]
        refine ⟨⟨fun h => absurd h (by simp), fun h => absurd h h1⟩,
          by simp [h2], ⟨fun h => absurd h (by simp), fun h => ?_⟩⟩
        linarith [h.1]
      · rw [if_neg h2]
        exact ⟨⟨fun h => absurd h (by simp), fun h => absurd h h1⟩,
          ⟨fun h => absurd h (by simp), fun h => absurd h h2⟩,
          ⟨fun _ => ⟨lt_of_not_le h2, lt_of_not_le h1⟩, fun _ => rfl⟩⟩

/-- **C5 (witness)**: the classifier at the exact boundaries — `1.20×` a
unit baseline is hot, `0.80×` is cold, `1.00×` is average, and any segment
value over a zero baseline is average. -/
theorem c5_witness :
    label_performance (6/5) 1 = .hot ∧ label_performance (4/5) 1 = .cold ∧
    label_performance 1 1 = .average ∧ label_performance 5 0 = .average := by
  refine ⟨?_, ?_, ?_, ?_⟩
  · exact (((c5_classifier_band (6/5) 1).2 (by norm_num)).1).mpr (by norm_num)
  · exact (((c5_classifier_band (4/5) 1).2 (by norm_num)).2.1).mpr (by norm_num)
  · exact (((c5_classifier_band 1 1).2 (by norm_num)).2.2).mpr (by norm_num)
  · exact (c5_classifier_band 5 0).1 rfl

/-- **C6**: for every signal strictly shorter than twice the minimum
segment length, `detect_change_points` skips detection and returns the
single breakpoint equal to the signal length — the whole season as one
segment, an ordinary (non-error) result. -/
theorem c6_short_signal_single_breakpoint (signal : List ℚ) (min_size : ℕ)
    (penalty : ℚ) (h : signal.length < min_size * 2) :
    detect_change_points signal min_size penalty = [signal.length] := by
  unfold detect_change_points
  rw [if_pos h]

/-- **C6 (witness)**: a two-game signal with `MIN_SEGMENT_SIZE = 7` is
below the `14`-sample threshold and yields the single breakpoint `[2]`. -/
theorem c6_witness :
    ([1/2, 1/2] : List ℚ).length < MIN_SEGMENT_SIZE * 2 ∧
    detect_change_points [1/2, 1/2] MIN_SEGMENT_SIZE PENALTY = [2] := by
  refine ⟨by norm_num [MIN_SEGMENT_SIZE], ?_⟩
  have h := c6_short_signal_single_breakpoint [1/2, 1/2] MIN_SEGMENT_SIZE
    PENALTY (by norm_num [MIN_SEGMENT_SIZE])
  simpa using h

/-- **C9**: the primary pass has full clear-then-repopulate semantics: its
output `streaks` table is a function of the game logs alone, so running
`detect_all_streaks` twice on unchanged input produces exactly the same
database state (identical Detection Records) as running it once. -/
theorem c9_primary_pass_idempotent (db : Database) :
    detect_all_streaks (detect_all_streaks db) = detect_all_streaks db := rfl

/-- **C10**: after every `ask`, the conversation history holds at most
`MAX_HISTORY = 5` exchanges; exactly the one new (question, answer) pair
was appended (it is the last entry), and the retained history is a suffix
of the appended history — the oldest exchanges are the ones discarded. -/
theorem c10_history_bound
    (f : List (String × String) → String → String) (st : EngineState)
    (q : String) :
    MAX_HISTORY = 5 ∧
    ((ask f st q).2.history).length ≤ MAX_HISTORY ∧
    ((ask f st q).2.history).getLast? = some (q, (ask f st q).1) ∧
    List.IsSuffix ((ask f st q).2.history)
      (st.history ++ [(q, (ask f st q).1)]) := by
  obtain ⟨h1, h2, h3⟩ := add_to_history_spec st.history q (f st.history q)
  exact ⟨rfl, h1, h2, h3⟩

/-- Structural invariant of the modelled PELT search: every returned
breakpoint list is strictly increasing, all entries are positive and
bounded by the horizon, and for a positive horizon the last entry is the
horizon itself. -/
theorem optPartF_inv (msz : ℕ) (pen : ℚ) (cost : ℕ → ℕ → ℚ) :
    ∀ fuel t c bk, optPartF msz pen cost fuel t = some (c, bk) →
      List.Chain' (· < ·) bk ∧ (∀ b ∈ bk, 0 < b ∧ b ≤ t) ∧
      (0 < t → bk.getLast? = some t) := by
  intro fuel
  induction fuel with
  | zero =>
      intro t c bk h
      cases t with
      | zero =>
          simp only [optPartF, Option.some.injEq, Prod.mk.injEq] at h
          obtain ⟨rfl, rfl⟩ := h
          simp
      | succ t => simp [optPartF] at h
  | succ fuel ih =>
      intro t c bk h
      cases t with
      | zero =>
          simp only [optPartF, Option.some.injEq, Prod.mk.injEq] at h
          obtain ⟨rfl, rfl⟩ := h
          simp
      | succ t =>
          simp only [optPartF] at h
          have hmem := pickMin_mem _ _ h
          rw [List.mem_filterMap] at hmem
          obtain ⟨s, hs, hcand⟩ := hmem
          rw [List.mem_range] at hs
          by_cases hguard : s + msz ≤ t + 1
          · rw [if_pos hguard] at hcand
            rw [Option.map_eq_some'] at hcand
            obtain ⟨⟨c2, bk2⟩, hopt, heq⟩ := hcand
            obtain ⟨hchain, hmem2, _⟩ := ih s c2 bk2 hopt
            have hbk : bk = bk2 ++ [t + 1] := by
              have h2 := congrArg Prod.snd heq
              simpa using h2.symm
            subst hbk
            refine ⟨?_, ?_, ?_⟩
            · rw [List.chain'_append]
              refine ⟨hchain, List.chain'_singleton _, ?_⟩
              intro x hx y hy
              have hxle : x ≤ s := (hmem2 x (List.mem_of_mem_getLast? hx)).2
              have hy2 : t + 1 = y := by simpa using hy
              subst hy2
              omega
            · intro b hb
              rcases List.mem_append.1 hb with hb | hb
              · obtain ⟨h1, h2⟩ := hmem2 b hb
                exact ⟨h1, by omega⟩
              · have hb2 : b = t + 1 := by simpa using hb
                subst hb2
                exact ⟨Nat.succ_pos t, le_refl _⟩
            · intro _
              exact List.getLast?_concat _
          · rw [if_neg hguard] at hcand
            simp at hcand

/-- **C7**: every breakpoint list produced by the Segmentation Engine on a
non-empty signal is strictly increasing, all its entries are positive, and
its final entry is the signal length — so the induced `[start, end)`
segments partition the signal with no gaps or overlaps. -/
theorem c7_breakpoints_partition (signal : List ℚ) (min_size : ℕ)
    (penalty : ℚ) (hsig : 0 < signal.length) :
    List.Chain' (· < ·) (detect_change_points signal min_size penalty) ∧
    (∀ b ∈ detect_change_points signal min_size penalty, 0 < b) ∧
    (detect_change_points signal min_size penalty).getLast?
      = some signal.length := by
  unfold detect_change_points
  by_cases h : signal.length < min_size * 2
  · rw [if_pos h]
    refine ⟨List.chain'_singleton _, ?_, rfl⟩
    intro b hb
    have : b = signal.length := by simpa using hb
    omega
  · rw [if_neg h]
    rcases hopt : optPartF min_size penalty
        (segCost (smoothSame ROLLING_WINDOW signal))
        signal.length signal.length with _ | ⟨c, bk⟩
    · simp only [hopt]
      refine ⟨List.chain'_singleton _, ?_, rfl⟩
      intro b hb
      have : b = signal.length := by simpa using hb
      omega
    · simp only [hopt]
      obtain ⟨h1, h2, h3⟩ := optPartF_inv min_size penalty _ _ _ _ _ hopt
      exact ⟨h1, fun b hb => (h2 b hb).1, h3 hsig⟩

/-- **C7 (witness)**: instantiated on a concrete two-sample signal with
the production parameters. -/
theorem c7_witness :
    0 < ([1/2, 1/3] : List ℚ).length ∧
    (List.Chain' (· < ·)
        (detect_change_points [1/2, 1/3] MIN_SEGMENT_SIZE PENALTY) ∧
      (∀ b ∈ detect_change_points [1/2, 1/3] MIN_SEGMENT_SIZE PENALTY, 0 < b) ∧
      (detect_change_points [1/2, 1/3] MIN_SEGMENT_SIZE PENALTY).getLast?
        = some ([1/2, 1/3] : List ℚ).length) :=
  ⟨by norm_num,
    c7_breakpoints_partition [1/2, 1/3] MIN_SEGMENT_SIZE PENALTY (by norm_num)⟩

/-- **C8**: zero (or missing, or negative) denominators never raise: a game
with non-positive-or-missing at-bats or plate-appearances contributes the
signal value `0.0`, and in segment aggregation a non-positive at-bat total
forces average and slugging to `0` while a non-positive plate-appearance
total forces on-base to `0` — every rate computation is guarded. -/
theorem c8_zero_denominators_yield_zero (g : GameLine)
    (games : List GameLine) (s e : ℕ)
    (h : g.at_bats.getD 0 ≤ 0 ∨ g.plate_appearances.getD 0 ≤ 0) :
    gameOps g = 0 ∧
    ((((games.drop s).take (e - s)).map (fun x => x.at_bats.getD 0)).sum ≤ 0 →
      (compute_segment_stats games s e).batting_avg = 0 ∧
      (compute_segment_stats games s e).slg = 0) ∧
    ((((games.drop s).take (e - s)).map
        (fun x => x.plate_appearances.getD 0)).sum ≤ 0 →
      (compute_segment_stats games s e).obp = 0) := by
  refine ⟨?_, ?_, ?_⟩
  · unfold gameOps
    rcases hab : g.at_bats with _ | ab <;>
      rcases hpa : g.plate_appearances with _ | pa <;>
      simp [hab, hpa] at h ⊢
    intro h1 h2
    exfalso
    omega
  · intro hsum
    constructor <;>
    · simp only [compute_segment_stats]
      rw [if_neg (by omega)]
      simp [roundTo3]
  · intro hsum
    simp only [compute_segment_stats]
    rw [if_neg (by omega)]
    simp [roundTo3]

/-- **C8 (witness)**: a zero-at-bat game contributes signal value `0`. -/
theorem c8_witness :
    (zGame 0).at_bats.getD 0 ≤ 0 ∧ gameOps (zGame 0) = 0 :=
  ⟨by simp [zGame],
    (c8_zero_denominators_yield_zero (zGame 0) zGames 0 14
      (Or.inl (by simp [zGame]))).1⟩

/-- Every record emitted by the segment-building loop is labeled against
the baseline the loop was given. -/
theorem buildSegments_label (games : List GameLine) (b : ℚ) :
    ∀ (start : ℕ) (bkps : List ℕ) (p : SegmentStats × Perf),
      p ∈ buildSegments games b start bkps →
      p.2 = label_performance p.1.ops b
  | _, [], p => by simp [buildSegments]
  | start, e :: rest, p => by
      intro hp
      simp only [buildSegments] at hp
      rcases List.mem_cons.1 hp with rfl | hp
      · rfl
      · exact buildSegments_label games b _ rest p hp

/-- **C2 (amended)**: the baseline OPS the primary pass labels every
segment against is the arithmetic mean of the per-game OPS signal
(`np.mean(ops_signal)`); the precomputed season rate stat in
`season_batting_stats` is never read by the pass. -/
theorem c2_amended_baseline_is_signal_mean (games : List GameLine)
    (p : SegmentStats × Perf) (hp : p ∈ processPlayerSeason games) :
    p.2 = label_performance p.1.ops (primaryBaseline games) := by
  unfold processPlayerSeason at hp
  by_cases h : games.length < MIN_SEGMENT_SIZE * 2
  · rw [if_pos h] at hp
    simp at hp
  · rw [if_neg h] at hp
    exact buildSegments_label games _ 0 _ p hp

/-- **C2 (counterexample)**: on `c2Games` the baseline the code uses (the
signal mean, `13/7`) differs from the precomputed season rate-stat OPS
(`104/53`), and the difference is material: a segment with OPS `2.23` is
"hot" against the code's baseline but "average" against the rate-stat
baseline the claim names. -/
theorem c2_counterexample :
    primaryBaseline c2Games = 13/7 ∧
    seasonRateStatOps c2Games = 104/53 ∧
    (13/7 : ℚ) ≠ 104/53 ∧
    label_performance (223/100) (primaryBaseline c2Games) = .hot ∧
    label_performance (223/100) (seasonRateStatOps c2Games) = .average := by
  have h1 : primaryBaseline c2Games = 13/7 := by
    norm_num [primaryBaseline, c2Games, hotGame, compute_game_ops, gameOps,
      totalBases, listMean, List.range_succ]
  have h2 : seasonRateStatOps c2Games = 104/53 := by
    norm_num [seasonRateStatOps, c2Games, hotGame, compute_segment_stats,
      totalBases, List.range_succ]
  refine ⟨h1, h2, by norm_num, ?_, ?_⟩
  · rw [h1]
    norm_num [label_performance]
  · rw [h2]
    norm_num [label_performance]

/-- **C2 (witness)**: the amended theorem instantiated on the concrete
14-game season `zGames`, whose primary pass emits one "average" record. -/
theorem c2_witness :
    (zStats, Perf.average) ∈ processPlayerSeason zGames ∧
    Perf.average = label_performance zStats.ops (primaryBaseline zGames) := by
  have hq : ¬((3 : ℚ) + 3 < 3) := by norm_num
  have hz : processPlayerSeason zGames = [(zStats, Perf.average)] := by
    simp [processPlayerSeason, zGames, zGame, zStats, compute_game_ops,
      gameOps, primaryBaseline, listMean, detect_change_points, smoothSame,
      segCost, optPartF, pickMin, buildSegments, compute_segment_stats,
      label_performance, roundTo3, totalBases, MIN_SEGMENT_SIZE, PENALTY,
      ROLLING_WINDOW, List.range_succ, hq]
  have hmem : (zStats, Perf.average) ∈ processPlayerSeason zGames := by
    rw [hz]
    exact List.mem_singleton.2 rfl
  exact ⟨hmem, c2_amended_baseline_is_signal_mean zGames _ hmem⟩

/-- **C4 (counterexample)**: with the two 7-game candidate segments of
`c4Games`, the hottest-segment selection picks the *first* segment, whose
exact aggregate OPS (`4/5`) is strictly *smaller* than the second
segment's (`2/5 + 401/1002`): the comparison is made on the rounded
3-decimal `ops` values (both `0.800`), not on unrounded values. -/
theorem c4_counterexample :
    maxByOps (collectFallbackSegs c4Games 0 [7, 14])
      = some (compute_segment c4Games 0 7) ∧
    exactSegOps c4Games 0 7 < exactSegOps c4Games 7 14 := by
  constructor
  · have hc : collectFallbackSegs c4Games 0 [7, 14]
        = [compute_segment c4Games 0 7, compute_segment c4Games 7 14] := by
      norm_num [collectFallbackSegs, c4Games, zGame, FALLBACK_MIN_SEGMENT,
        FALLBACK_MAX_SEGMENT, List.range_succ]
    have hops1 : (compute_segment c4Games 0 7).ops = 4/5 := by
      norm_num [compute_segment, c4Games, zGame, totalBases, roundTo3,
        round_eq, List.range_succ]
    have hops2 : (compute_segment c4Games 7 14).ops = 4/5 := by
      norm_num [compute_segment, c4Games, zGame, totalBases, roundTo3,
        round_eq, List.range_succ]
    rw [hc]
    simp only [maxByOps, List.foldl_cons, List.foldl_nil, hops1, hops2,
      lt_self_iff_false, if_false]
  · norm_num [exactSegOps, c4Games, zGame, totalBases, List.range_succ]

/-- **C4 (amended)**: rate stats are rounded to 3 decimals *before* the
hottest/coldest selection as well as for storage: the selection maximizes
and minimizes the rounded `ops` field (ties broken by list order, earliest
segment first), so the chosen hottest (resp. coldest) segment's rounded
OPS dominates (resp. is dominated by) every candidate's rounded OPS. -/
theorem c4_amended_selection_on_rounded (l : List FallbackSeg)
    (s t : FallbackSeg) (hs : maxByOps l = some s)
    (ht : minByOps l = some t) :
    (s ∈ l ∧ ∀ x ∈ l, x.ops ≤ s.ops) ∧
    (t ∈ l ∧ ∀ x ∈ l, t.ops ≤ x.ops) := by
  cases l with
  | nil => simp [maxByOps] at hs
  | cons a as =>
      simp only [maxByOps, Option.some.injEq] at hs
      simp only [minByOps, Option.some.injEq] at ht
      obtain ⟨hmem, hle⟩ := foldl_maxOps_spec as a
      obtain ⟨hmem2, hle2⟩ := foldl_minOps_spec as a
      subst hs
      subst ht
      exact ⟨⟨hmem, hle⟩, ⟨hmem2, hle2⟩⟩

/-- **C4 (witness)**: the amended selection property instantiated on a
concrete two-segment list. -/
theorem c4_witness :
    maxByOps [zSeg, zSeg] = some zSeg ∧ minByOps [zSeg, zSeg] = some zSeg ∧
    zSeg ∈ [zSeg, zSeg] ∧ (∀ x ∈ [zSeg, zSeg], x.ops ≤ zSeg.ops) ∧
    (∀ x ∈ [zSeg, zSeg], zSeg.ops ≤ x.ops) := by
  have hs : maxByOps [zSeg, zSeg] = some zSeg := by
    simp [maxByOps]
  have ht : minByOps [zSeg, zSeg] = some zSeg := by
    simp [minByOps]
  obtain ⟨⟨m1, m2⟩, ⟨_, m4⟩⟩ := c4_amended_selection_on_rounded _ _ _ hs ht
  exact ⟨hs, ht, m1, m2, m4⟩

/-- Concrete evaluation of the live-recompute tier on the 14-game
zero-action season: one 14-game segment qualifies (7 ≤ 14 ≤ 30), so the
fallback returns it as both hottest and coldest with season mean `0`. -/
theorem find_best_worst_zGames :
    find_best_worst_stretches zGames = some (0, zSeg, zSeg) := by
  have h1 : ¬((3 : ℚ) < 3/2) := by norm_num
  simp [find_best_worst_stretches, zGames, zGame, zSeg, compute_game_ops,
    gameOps, listMean, smoothSame, segCost, optPartF, pickMin,
    collectFallbackSegs, compute_segment, maxByOps, minByOps, roundTo3,
    totalBases, FALLBACK_MIN_SEGMENT, FALLBACK_MAX_SEGMENT, FALLBACK_PENALTY,
    FALLBACK_ROLLING_WINDOW, List.range_succ, h1]

/-- **C1 (counterexample)**: the resolver does not walk a secondary tier.
First input: the player-season has one primary record labeled "average"
and a *non-empty* secondary store containing a "hot" record matching the
requested filter; the resolver answers with the primary record and an
invoked live recomputation — the secondary record appears nowhere, and the
walk did not stop at the non-empty unfiltered-primary tier.  Second input:
no primary records at all but a non-empty secondary store; the resolver
reports no-data without consulting the secondary records or recomputing. -/
theorem c1_counterexample :
    handle_streak_query [(zStats, Perf.average)] [(zStats, Perf.hot, 1)]
        zGames (some Perf.hot)
      = .answer [(zStats, Perf.average)] (some (0, zSeg, zSeg)) ∧
    handle_streak_query [] [(zStats, Perf.hot, 1)] zGames (some Perf.hot)
      = .noData := by
  constructor
  · unfold handle_streak_query
    simp [matchesFilter, find_best_worst_zGames]
  · unfold handle_streak_query
    simp [matchesFilter]

/-- **C1 (amended)**: the query-time resolver walks only three tiers —
primary records with the label filter, primary records without the filter,
then live recomputation — and never consults the secondary
(`streaks_sensitive`) records: its answer is invariant under any change to
the secondary store.  It reports no-data exactly when the player-season
has no primary records whatsoever; with two or more filtered rows it
answers from them alone, and when the rows came from the unfiltered retry
it answers them together with an attempted live recomputation. -/
theorem c1_amended_tier_walk (primary : List (SegmentStats × Perf))
    (sec sec' : List (SegmentStats × Perf × ℚ)) (games : List GameLine)
    (f : Option Perf) :
    handle_streak_query primary sec games f
      = handle_streak_query primary sec' games f ∧
    (handle_streak_query primary sec games f = .noData ↔ primary = []) ∧
    ((primary.filter (fun r => matchesFilter f r.2)).isEmpty = false →
      (primary.filter (fun r => matchesFilter f r.2)).length ≠ 1 →
      handle_streak_query primary sec games f
        = .answer (primary.filter (fun r => matchesFilter f r.2)) none) ∧
    ((primary.filter (fun r => matchesFilter f r.2)).isEmpty = true →
      primary ≠ [] →
      handle_streak_query primary sec games f
        = .answer primary (find_best_worst_stretches games)) ∧
    ((primary.filter (fun r => matchesFilter f r.2)).length = 1 →
      handle_streak_query primary sec games f
        = .answer (primary.filter (fun r => matchesFilter f r.2))
            (find_best_worst_stretches games)) := by
  refine ⟨rfl, ?_, ?_, ?_, ?_⟩
  · unfold handle_streak_query
    by_cases h1 : (primary.filter (fun r => matchesFilter f r.2)).isEmpty
    · rw [if_pos h1]
      by_cases h2 : primary.isEmpty
      · rw [if_pos h2]
        simp only [List.isEmpty_iff] at h2
        simp [h2]
      · rw [if_neg h2]
        simp only [List.isEmpty_iff] at h2
        constructor
        · intro hcontr
          exact absurd hcontr (by simp)
        · intro hp
          exact absurd hp h2
    · rw [if_neg h1]
      have hne : primary ≠ [] := by
        intro hp
        subst hp
        simp at h1
      by_cases h3 : (primary.filter (fun r => matchesFilter f r.2)).length = 1
      · rw [if_pos h3]
        exact ⟨fun hcontr => absurd hcontr (by simp), fun hp => absurd hp hne⟩
      · rw [if_neg h3]
        exact ⟨fun hcontr => absurd hcontr (by simp), fun hp => absurd hp hne⟩
  · intro h1 h3
    unfold handle_streak_query
    rw [if_neg (by simp [h1]), if_neg h3]
  · intro h1 h2
    unfold handle_streak_query
    rw [if_pos h1, if_neg (by simpa [List.isEmpty_iff] using h2)]
  · intro h1
    unfold handle_streak_query
    have hne : ¬((primary.filter (fun r => matchesFilter f r.2)).isEmpty
        = true) := by
      rw [List.isEmpty_iff]
      intro hl
      rw [hl] at h1
      simp at h1
    rw [if_neg hne, if_pos h1]

/-- **C1 (witness)**: the amended tier walk instantiated concretely — a
two-row filtered result is returned as-is (no fallback), a no-data reply
means no primary rows, and an exactly-one-filtered-row result is returned
together with the invoked live recomputation, all with the answer
independent of an arbitrary secondary store. -/
theorem c1_witness :
    handle_streak_query [(zStats, Perf.average), (zStats, Perf.hot)]
        [(zStats, Perf.cold, 1)] zGames none
      = .answer [(zStats, Perf.average), (zStats, Perf.hot)] none ∧
    (handle_streak_query [] [(zStats, Perf.hot, 1)] zGames none = .noData ↔
      ([] : List (SegmentStats × Perf)) = []) ∧
    handle_streak_query [(zStats, Perf.hot)] [(zStats, Perf.cold, 1)] zGames
        (some Perf.hot)
      = .answer [(zStats, Perf.hot)] (some (0, zSeg, zSeg)) := by
  refine ⟨?_, ?_, ?_⟩
  · have h := (c1_amended_tier_walk
      [(zStats, Perf.average), (zStats, Perf.hot)] [(zStats, Perf.cold, 1)]
      [] zGames none).2.2.1 (by simp [matchesFilter]) (by simp [matchesFilter])
    simpa [matchesFilter] using h
  · exact (c1_amended_tier_walk [] [(zStats, Perf.hot, 1)]
      [] zGames none).2.1
  · have h := (c1_amended_tier_walk [(zStats, Perf.hot)]
      [(zStats, Perf.cold, 1)] [] zGames (some Perf.hot)).2.2.2.2
      (by simp [matchesFilter])
    simpa [matchesFilter, find_best_worst_zGames] using h

end StatChat
